import Mathlib

/-!
Verification of the marwind window manager's tiling core (package `wm`).

The Go source is shallowly embedded: `uint32` arithmetic is `Nat` with
explicit wrap-around (`add32`, `sub32`), pointer-mutating render functions
become state-passing functions that return the updated tree together with
the list of X server calls they issued and the error they returned, and
the X server itself is an oracle (`XServer`) mapping each request to
success or an error string.  Container methods whose source file is not
part of the provided tree (`workspace.go`, `column.go`, `output.go`) are
modelled from the specification and marked as such in their doc comments.
-/

namespace Marwind

/-- Width of the machine integers used by the Go implementation (`uint32`). -/
def W32 : Nat := 2 ^ 32

/-- Addition with Go `uint32` wrap-around semantics. -/
def add32 (a b : Nat) : Nat := (a + b) % W32

/-- Subtraction with Go `uint32` wrap-around semantics (computes `a - b` mod `2^32`
for `a < 2^32`). -/
def sub32 (a b : Nat) : Nat := (a + W32 - b % W32) % W32

/-- A pixel rectangle (`x11.Geom`): position and size in `uint32` pixels. -/
structure Geom where
  x : Nat
  y : Nat
  w : Nat
  h : Nat
deriving DecidableEq

/-- A managed window (`frame` in `wm/frame.go`): the reparenting container window id,
the client window id, the height share used by its column, the mapped flag and the
last geometry assigned by the layout engine. -/
structure Frame where
  parent : Nat
  client : Nat
  height : Nat
  mapped : Bool
  geom : Geom
deriving DecidableEq

/-- A column (`column`): an ordered sequence of frames plus a width share. -/
structure Column where
  width : Nat
  frames : List Frame
deriving DecidableEq

/-- A workspace as seen by the render engine (`workspace`): an ordered list of columns. -/
structure Workspace where
  columns : List Column
deriving DecidableEq

/-- The two dock areas of an output (`dockArea`). -/
inductive DockArea where
  | top
  | bottom
deriving DecidableEq

/-- An output (`output`): its rectangle, the two dock areas and the active workspace. -/
structure Output where
  geom : Geom
  dockTop : List Frame
  dockBottom : List Frame
  activeWs : Workspace
deriving DecidableEq

/-- The dock-frame list of a given area (`o.dockAreas[area]`). -/
def Output.dockAreas (o : Output) (a : DockArea) : List Frame :=
  match a with
  | .top => o.dockTop
  | .bottom => o.dockBottom

/-- An X protocol request issued by the render engine. -/
inductive XCall where
  | configure (win : Nat) (geom : Geom)
  | sendEvent (win : Nat)
deriving DecidableEq

/-- The X server as an oracle: each request either succeeds (`none`) or fails with an
error string. -/
structure XServer where
  configure : Nat → Geom → Option String
  sendEvent : Nat → Option String

/-- Error accumulation of the Go pattern `if e := run(); e != nil { err = e }`:
the new result replaces the remembered error only when it is non-nil. -/
def keepLast (old new : Option String) : Option String :=
  match new with
  | some e => some e
  | none => old

/-- `renderFrame` (`render.go`): no-op for an unmapped frame; otherwise assigns the
frame's geometry, configures the parent window, configures the client window at local
origin, and sends the synthetic configure-notify event, aborting at the first failing
call. -/
def renderFrame (srv : XServer) (f : Frame) (geom : Geom) : Frame × List XCall × Option String :=
  if !f.mapped then
    (f, [], none)
  else
    let f1 : Frame := { f with geom := geom }
    let clientGeom : Geom := ⟨0, 0, geom.w, geom.h⟩
    match srv.configure f.parent geom with
    | some e => (f1, [XCall.configure f.parent geom], some e)
    | none =>
      match srv.configure f.client clientGeom with
      | some e => (f1, [XCall.configure f.parent geom, XCall.configure f.client clientGeom],
          some e)
      | none =>
        match srv.sendEvent f.client with
        | some e => (f1, [XCall.configure f.parent geom, XCall.configure f.client clientGeom,
            XCall.sendEvent f.client], some e)
        | none => (f1, [XCall.configure f.parent geom, XCall.configure f.client clientGeom,
            XCall.sendEvent f.client], none)

/-- Modelled from the spec: `o.dockHeight(area)` (from the missing `output.go`) is the
summed height of the dock frames occupying the given area. -/
def dockHeight (o : Output) (a : DockArea) : Nat :=
  (o.dockAreas a).foldl (fun acc f => add32 acc f.height) 0

/-- The loop body of `renderDock`: stack the dock frames downward from `y` at the
output's x position and width; the Go loop assigns `err = wm.renderFrame(f, geom)`
unconditionally, so the returned error is the result of the last iteration. -/
def renderDockFrames (srv : XServer) (x w : Nat) (frames : List Frame) (y : Nat) :
    List Frame × List XCall × Option String :=
  match frames with
  | [] => ([], [], none)
  | f :: rest =>
    let geom : Geom := ⟨x, y, w, f.height⟩
    let r := renderFrame srv f geom
    let rr := renderDockFrames srv x w rest (add32 y geom.h)
    (r.1 :: rr.1, r.2.1 ++ rr.2.1, if rest.isEmpty then r.2.2 else rr.2.2)

/-- `renderDock` (`render.go`): the top area starts at the output's top edge, the
bottom area at `outputHeight - dockHeight(bottom)`; frames stack downward. -/
def renderDock (srv : XServer) (o : Output) (a : DockArea) :
    List Frame × List XCall × Option String :=
  let y : Nat :=
    match a with
    | .top => o.geom.y
    | .bottom => sub32 o.geom.h (dockHeight o .bottom)
  renderDockFrames srv o.geom.x o.geom.w (o.dockAreas a) y

/-- The loop body of `renderColumn`: walk the frames top to bottom, each frame getting
the column's horizontal extent and its own height share, inset by the configured gap on
all four sides; errors use the keep-last-non-nil pattern. -/
def renderColumnFrames (srv : XServer) (gap : Nat) (cgeom : Geom) (frames : List Frame)
    (y : Nat) : List Frame × List XCall × Option String :=
  match frames with
  | [] => ([], [], none)
  | f :: rest =>
    let fg : Geom := ⟨add32 cgeom.x gap, add32 y gap, sub32 cgeom.w (gap * 2),
      sub32 f.height (gap * 2)⟩
    let r := renderFrame srv f fg
    let rr := renderColumnFrames srv gap cgeom rest (add32 y f.height)
    (r.1 :: rr.1, r.2.1 ++ rr.2.1, keepLast r.2.2 rr.2.2)

/-- `renderColumn` (`render.go`): render the column's frames inside `geom`, starting
the running y coordinate at `geom.y`. -/
def renderColumn (srv : XServer) (gap : Nat) (col : Column) (geom : Geom) :
    Column × List XCall × Option String :=
  let r := renderColumnFrames srv gap geom col.frames geom.y
  ({ col with frames := r.1 }, r.2.1, r.2.2)

/-- Modelled from the spec: `ws.fullArea()` (from the missing `workspace.go`) is the
full usable area of the owning output — the output rectangle minus the dock heights on
the top and bottom edges. -/
def fullArea (o : Output) : Geom :=
  ⟨o.geom.x, add32 o.geom.y (dockHeight o .top), o.geom.w,
    sub32 (sub32 o.geom.h (dockHeight o .top)) (dockHeight o .bottom)⟩

/-- Modelled from the spec: `ws.area()` (from the missing `workspace.go`) is the usable
area inside which the columns are laid out; per the layout description and the
end-to-end example of the spec this is the usable area of the output. -/
def area (o : Output) : Geom := fullArea o

/-- Modelled from the spec: `ws.singleFrame()` (from the missing `workspace.go`)
returns the only frame when the workspace contains exactly one frame in total (one
column holding one frame), and nothing otherwise. -/
def singleFrame (ws : Workspace) : Option Frame :=
  match ws.columns with
  | [col] =>
    match col.frames with
    | [f] => some f
    | _ => none
  | _ => none

/-- Writing back the in-place mutation of the single frame on the fast path of
`renderWorkspace`: the workspace's only frame is replaced by its rendered version. -/
def setSingleFrame (ws : Workspace) (f : Frame) : Workspace :=
  match ws.columns with
  | [col] => ⟨[⟨col.width, [f]⟩]⟩
  | _ => ws

/-- The loop body of `renderWorkspace`: walk the columns left to right, each column
getting its width share and the full usable height, with the running x coordinate
advancing by each column's width; errors use the keep-last-non-nil pattern. -/
def renderWorkspaceCols (srv : XServer) (gap : Nat) (a : Geom) (cols : List Column)
    (x : Nat) : List Column × List XCall × Option String :=
  match cols with
  | [] => ([], [], none)
  | col :: rest =>
    let geom : Geom := ⟨x, a.y, col.width, a.h⟩
    let r := renderColumn srv gap col geom
    let rr := renderWorkspaceCols srv gap a rest (add32 x col.width)
    (r.1 :: rr.1, r.2.1 ++ rr.2.1, keepLast r.2.2 rr.2.2)

/-- `renderWorkspace` (`render.go`): the single-frame fast path places the only frame
at the full usable area; otherwise the columns are laid out left to right inside the
workspace area. -/
def renderWorkspace (srv : XServer) (gap : Nat) (o : Output) (ws : Workspace) :
    Workspace × List XCall × Option String :=
  match singleFrame ws with
  | some f =>
    let r := renderFrame srv f (fullArea o)
    (setSingleFrame ws r.1, r.2.1, r.2.2)
  | none =>
    let a := area o
    let r := renderWorkspaceCols srv gap a ws.columns a.x
    (⟨r.1⟩, r.2.1, r.2.2)

/-- `renderOutput` (`render.go`): render the top dock area, the bottom dock area and
the active workspace in that order; each region is attempted regardless of earlier
failures and the remembered error is overwritten by each non-nil result. -/
def renderOutput (srv : XServer) (gap : Nat) (o : Output) :
    Output × List XCall × Option String :=
  let rt := renderDock srv o .top
  let o1 : Output := { o with dockTop := rt.1 }
  let rb := renderDock srv o1 .bottom
  let o2 : Output := { o1 with dockBottom := rb.1 }
  let rw := renderWorkspace srv gap o2 o2.activeWs
  let o3 : Output := { o2 with activeWs := rw.1 }
  (o3, rt.2.1 ++ rb.2.1 ++ rw.2.1, keepLast (keepLast rt.2.2 rb.2.2) rw.2.2)

/-! ### Move operations (`wm/frame.go`) -/

/-- Move directions of `moveWindow` (`MoveDirection`). -/
inductive MoveDirection where
  | left
  | right
  | up
  | down
deriving DecidableEq

/-- A placeholder frame used for list accesses that the Go code performs through
pointers that are known to be valid. -/
def dummyFrame : Frame := ⟨0, 0, 0, false, ⟨0, 0, 0, 0⟩⟩

/-- A placeholder column, likewise. -/
def dummyColumn : Column := ⟨0, []⟩

/-- Modelled from the spec: the in-column search of `wm.findFrame` — the first frame
whose client window matches. -/
def findInFrames (win : Nat) : List Frame → Option Frame
  | [] => none
  | f :: rest => if f.client == win then some f else findInFrames win rest

/-- Modelled from the spec: the combination of `wm.findFrame` and
`ws.findColumnIndex(c == f.col)` — locate the first column holding a frame with the
given client window, returning the column index and the frame. -/
def locate (win : Nat) : List Column → Option (Nat × Frame)
  | [] => none
  | c :: rest =>
    match findInFrames win c.frames with
    | some f => some (0, f)
    | none => (locate win rest).map (fun p => (p.1 + 1, p.2))

/-- Modelled from the spec: `col.deleteFrame(f)` removes the frame (identified by its
client window) from the column's frame list. -/
def eraseFrame (win : Nat) : List Frame → List Frame
  | [] => []
  | f :: rest => if f.client == win then rest else f :: eraseFrame win rest

/-- Modelled from the spec: `col.findFrameIndex` — the index of the frame with the
given client window. -/
def findFrameIdx (win : Nat) : List Frame → Option Nat
  | [] => none
  | f :: rest => if f.client == win then some 0 else (findFrameIdx win rest).map (· + 1)

/-- `moveWindow` (`wm/frame.go`): move the frame with the given client window in the
given direction inside the workspace whose columns are `cols`.  Horizontal moves
re-parent the frame into the adjacent column (or a fresh edge column of the default
width `defW`, per the spec's `createColumn`) and delete the original column if it
became empty; vertical moves swap the frame with its neighbour by index, with no-ops
at the boundaries.  A window that is not found leaves the workspace unchanged.
In-place pointer mutations of the Go code become `List.set` at the pointer's known
index, and the spec's `ws.deleteColumn` becomes `List.eraseIdx` there. -/
def moveWindow (defW : Nat) (cols : List Column) (win : Nat) (dir : MoveDirection) :
    List Column :=
  match locate win cols with
  | none => cols
  | some (i, f) =>
    match dir with
    | .left =>
      let origCol := (cols[i]?).getD dummyColumn
      let origFrames := eraseFrame win origCol.frames
      let cols1 := cols.set i { origCol with frames := origFrames }
      if i == 0 then
        let cols2 := ⟨defW, [f]⟩ :: cols1
        if origFrames.isEmpty then cols2.eraseIdx 1 else cols2
      else
        let adj := (cols1[i - 1]?).getD dummyColumn
        let cols2 := cols1.set (i - 1) { adj with frames := adj.frames ++ [f] }
        if origFrames.isEmpty then cols2.eraseIdx i else cols2
    | .right =>
      let origCol := (cols[i]?).getD dummyColumn
      let origFrames := eraseFrame win origCol.frames
      let cols1 := cols.set i { origCol with frames := origFrames }
      if i == cols.length - 1 then
        let cols2 := cols1 ++ [⟨defW, [f]⟩]
        if origFrames.isEmpty then cols2.eraseIdx i else cols2
      else
        let adj := (cols1[i + 1]?).getD dummyColumn
        let cols2 := cols1.set (i + 1) { adj with frames := adj.frames ++ [f] }
        if origFrames.isEmpty then cols2.eraseIdx i else cols2
    | .up =>
      let col := (cols[i]?).getD dummyColumn
      let j := (findFrameIdx win col.frames).getD 0
      if 0 < j then
        let other := (col.frames[j - 1]?).getD dummyFrame
        cols.set i { col with frames := (col.frames.set (j - 1) f).set j other }
      else cols
    | .down =>
      let col := (cols[i]?).getD dummyColumn
      let j := (findFrameIdx win col.frames).getD 0
      if j < col.frames.length - 1 then
        let other := (col.frames[j + 1]?).getD dummyFrame
        cols.set i { col with frames := (col.frames.set (j + 1) f).set j other }
      else cols

/-! ### Workspace management (`wm/frame.go`, `wm/wm.go`)

The manager state keeps the workspace array and the single output's active
workspace.  The workspace's output back-reference is an `Option Nat` naming the owning
output; the current output (`wm.outputs[0]`) is output `0`.  The collaborator calls of
the workspace operations (render, unmap, desktop hints, focus) are abstracted by an
oracle and recorded as effects. -/

/-- A workspace as seen by the manager (`workspace`): identifier, columns, and the
output back-reference (`nil` until first assigned; the current output is `0`). -/
structure WSpace where
  id : Nat
  columns : List Column
  output : Option Nat
deriving DecidableEq

/-- The manager state (`WM`): the workspace registry and the index (into the registry)
of `wm.outputs[0].activeWs`. -/
structure WMState where
  workspaces : List WSpace
  activeWs : Nat
deriving DecidableEq

/-- A collaborator call performed by a workspace operation. -/
inductive Effect where
  | render (wsIdx : Nat)
  | unmapFrame (win : Nat)
  | desktopHints
  | removeFocus
  | setFocus (win : Nat)
deriving DecidableEq

/-- The collaborators of the workspace operations as an oracle: each call either
succeeds (`none`) or fails with an error string. -/
structure WMOracle where
  renderErr : Nat → Option String
  unmapErr : Nat → Option String
  hintsErr : Option String
  removeFocusErr : Option String
  setFocusErr : Nat → Option String

/-- The lookup loop at the top of `ensureWorkspace`: the first workspace with the
given identifier, together with its index. -/
def findWs (id : Nat) : List WSpace → Option (Nat × WSpace)
  | [] => none
  | ws :: rest =>
    if ws.id == id then some (0, ws)
    else (findWs id rest).map (fun p => (p.1 + 1, p.2))

/-- Modelled from the spec: `wm.outputs[0].addWorkspace(nextWs)` (from the missing
`output.go`) attaches the workspace to the current output by setting its output
back-reference. -/
def addWorkspace : List WSpace → Nat → List WSpace
  | [], _ => []
  | ws :: rest, 0 => { ws with output := some 0 } :: rest
  | ws :: rest, n + 1 => ws :: addWorkspace rest n

/-- `ensureWorkspace` (`wm/frame.go`): look the workspace up by identifier (not-found
error if absent), attach it to the current output when it has none, and reject it with
an explicit error when it belongs to a different output.  Returns the possibly updated
state and the index of the workspace. -/
def ensureWorkspace (wm : WMState) (id : Nat) : Except String (WMState × Nat) :=
  match findWs id wm.workspaces with
  | none => .error ("no workspace with ID " ++ toString id)
  | some (i, ws) =>
    match ws.output with
    | none => .ok ({ wm with workspaces := addWorkspace wm.workspaces i }, i)
    | some 0 => .ok (wm, i)
    | some (_ + 1) => .error "multiple outputs not supported yet"

/-- The client window of the first frame of the first column of the workspace at the
given index, if any (the temporary default-focus policy of `switchWorkspace`). -/
def firstWin (l : List WSpace) (i : Nat) : Option Nat :=
  match l[i]? with
  | none => none
  | some ws =>
    match ws.columns with
    | [] => none
    | c :: _ =>
      match c.frames with
      | [] => none
      | f :: _ => some f.client

/-- `switchWorkspace` (`wm/frame.go`): ensure the workspace, make it the output's
active workspace (the missing `output.switchWorkspace`, modelled from the spec as
setting the active workspace), then re-render it, refresh the desktop hints, clear the
focus and focus the first frame of the first column if one exists; the first failing
step aborts the chain with a wrapped error. -/
def switchWorkspace (wm : WMState) (orc : WMOracle) (id : Nat) :
    WMState × List Effect × Option String :=
  match ensureWorkspace wm id with
  | .error e => (wm, [], some ("failed to ensure workspace: " ++ e))
  | .ok (wm1, i) =>
    let wm2 : WMState := { wm1 with activeWs := i }
    match orc.renderErr i with
    | some e => (wm2, [.render i], some ("wm.renderWorkspace: " ++ e))
    | none =>
      match orc.hintsErr with
      | some e => (wm2, [.render i, .desktopHints],
          some ("failed to update desktop hints: " ++ e))
      | none =>
        match orc.removeFocusErr with
        | some e => (wm2, [.render i, .desktopHints, .removeFocus],
            some ("failed to remove focus: " ++ e))
        | none =>
          match firstWin wm2.workspaces i with
          | none => (wm2, [.render i, .desktopHints, .removeFocus], none)
          | some w =>
            match orc.setFocusErr w with
            | some e => (wm2, [.render i, .desktopHints, .removeFocus, .setFocus w],
                some ("failed to set focus: " ++ e))
            | none => (wm2, [.render i, .desktopHints, .removeFocus, .setFocus w], none)

/-- Modelled from the spec: the column walk of `ws.deleteFrame(f)` — remove the frame
with the given client window from the first column holding it, deleting the column if
it becomes empty, and report whether the frame was found. -/
def delFrameCols (win : Nat) : List Column → List Column × Bool
  | [] => ([], false)
  | c :: rest =>
    match findInFrames win c.frames with
    | some _ =>
      let frames1 := eraseFrame win c.frames
      (if frames1.isEmpty then rest else { c with frames := frames1 } :: rest, true)
    | none =>
      let r := delFrameCols win rest
      (c :: r.1, r.2)

/-- Modelled from the spec: `ws.deleteFrame(f)` — remove the frame from the
workspace's tree, deleting its column when emptied; reports whether it was found. -/
def wsDeleteFrame (ws : WSpace) (win : Nat) : WSpace × Bool :=
  let r := delFrameCols win ws.columns
  ({ ws with columns := r.1 }, r.2)

/-- Modelled from the spec: the column walk of `ws.addFrame(f)` — insert the frame
into the workspace's tree (the spec leaves the position unspecified; the frame is
appended to the last column, or to a fresh column of the default width when the
workspace has none). -/
def addFrameCols (defW : Nat) (f : Frame) : List Column → List Column
  | [] => [⟨defW, [f]⟩]
  | [c] => [{ c with frames := c.frames ++ [f] }]
  | c :: rest => c :: addFrameCols defW f rest

/-- Modelled from the spec: `ws.addFrame(f)` — insert the frame into the workspace. -/
def wsAddFrame (defW : Nat) (ws : WSpace) (f : Frame) : WSpace :=
  { ws with columns := addFrameCols defW f ws.columns }

/-- `moveFrameToWorkspace` (`wm/frame.go`): ensure the target workspace; a target
equal to the current active workspace is a silent no-op; otherwise delete the frame
from the active workspace (failing when it is not contained there), add it to the
target, unmap it, re-render both workspaces and refresh the desktop hints, aborting at
the first failing step. -/
def moveFrameToWorkspace (wm : WMState) (orc : WMOracle) (defW : Nat) (f : Frame)
    (wsID : Nat) : WMState × List Effect × Option String :=
  let current := wm.activeWs
  match ensureWorkspace wm wsID with
  | .error e => (wm, [], some e)
  | .ok (wm1, next) =>
    if next == current then (wm1, [], none)
    else
      let curWs := (wm1.workspaces[current]?).getD ⟨0, [], none⟩
      let r := wsDeleteFrame curWs f.client
      if !r.2 then (wm1, [], some ("frame not contained within workspace " ++ toString wsID))
      else
        let wm2 : WMState := { wm1 with workspaces := wm1.workspaces.set current r.1 }
        let nextWs := (wm2.workspaces[next]?).getD ⟨0, [], none⟩
        let wm3 : WMState :=
          { wm2 with workspaces := wm2.workspaces.set next (wsAddFrame defW nextWs f) }
        match orc.unmapErr f.client with
        | some e => (wm3, [.unmapFrame f.client], some ("failed to unmap the frame: " ++ e))
        | none =>
          match orc.renderErr next with
          | some e => (wm3, [.unmapFrame f.client, .render next],
              some ("failed to render next workspace: " ++ e))
          | none =>
            match orc.renderErr current with
            | some e => (wm3, [.unmapFrame f.client, .render next, .render current],
                some ("failed to render previous workspace: " ++ e))
            | none =>
              match orc.hintsErr with
              | some e => (wm3,
                  [.unmapFrame f.client, .render next, .render current, .desktopHints],
                  some ("failed to update desktop hints: " ++ e))
              | none => (wm3,
                  [.unmapFrame f.client, .render next, .render current, .desktopHints], none)

/-! ### Derived quantities and concrete instances used in the statements below -/

/-- Total height of a list of frames (the running-y displacement of the frames that
precede a given frame in its column). -/
def sumHeights : List Frame → Nat
  | [] => 0
  | f :: rest => f.height + sumHeights rest

/-- An X server on which every request succeeds. -/
def srvOK : XServer := ⟨fun _ _ => none, fun _ => none⟩

/-- An X server that rejects the configure request of window `1` with error `e1` and
of window `3` with error `e2`, accepting everything else. -/
def srv0 : XServer :=
  ⟨fun w _ => if w == 1 then some "e1" else if w == 3 then some "e2" else none,
    fun _ => none⟩

/-- An output whose top dock frame has parent window `1` (whose configure fails on
`srv0`) and whose active workspace holds a single frame with parent window `3` (whose
configure also fails on `srv0`). -/
def o0 : Output :=
  ⟨⟨0, 0, 1920, 1080⟩, [⟨1, 2, 30, true, ⟨0, 0, 0, 0⟩⟩], [],
    ⟨[⟨960, [⟨3, 4, 100, true, ⟨0, 0, 0, 0⟩⟩]⟩]⟩⟩

/-- An X server that rejects the configure request of window `10` with error `boom`,
accepting everything else. -/
def srv1 : XServer := ⟨fun w _ => if w == 10 then some "boom" else none, fun _ => none⟩

/-- A dock frame whose parent window `10` fails to configure on `srv1`. -/
def dockF1 : Frame := ⟨10, 20, 30, true, ⟨0, 0, 0, 0⟩⟩

/-- A dock frame whose requests all succeed on `srv1`. -/
def dockF2 : Frame := ⟨11, 21, 40, true, ⟨0, 0, 0, 0⟩⟩

/-- An output whose top dock area holds `dockF1` followed by `dockF2`. -/
def o1 : Output := ⟨⟨0, 0, 1920, 1080⟩, [dockF1, dockF2], [], ⟨[]⟩⟩

/-- A mapped frame used by concrete instantiations. -/
def frA : Frame := ⟨5, 6, 500, true, ⟨0, 0, 0, 0⟩⟩

/-- A second mapped frame used by concrete instantiations. -/
def frB : Frame := ⟨7, 8, 540, true, ⟨0, 0, 0, 0⟩⟩

/-- A third mapped frame used by concrete instantiations. -/
def frC : Frame := ⟨9, 12, 300, true, ⟨0, 0, 0, 0⟩⟩

/-- A column holding `frA` above `frB`. -/
def colAB : Column := ⟨960, [frA, frB]⟩

/-- A collaborator oracle on which every call succeeds. -/
def orcOK : WMOracle := ⟨fun _ => none, fun _ => none, none, none, fun _ => none⟩

/-- A three-workspace manager state: workspace `1` is active on the current output,
workspace `2` is unattached, workspace `3` belongs to another output. -/
def wm0 : WMState :=
  ⟨[⟨1, [⟨960, [frA]⟩], some 0⟩, ⟨2, [⟨960, [frB]⟩], none⟩, ⟨3, [], some 1⟩], 0⟩

/-! ## Helper lemmas -/

theorem add32_eq_of_lt {a b : Nat} (h : a + b < W32) : add32 a b = a + b :=
  Nat.mod_eq_of_lt h

theorem sub32_eq_of_le {a b : Nat} (hba : b ≤ a) (ha : a < W32) : sub32 a b = a - b := by
  unfold sub32
  rw [Nat.mod_eq_of_lt (lt_of_le_of_lt hba ha)]
  have h1 : a + W32 - b = W32 + (a - b) := by omega
  rw [h1, Nat.add_mod_left, Nat.mod_eq_of_lt (by omega)]

theorem keepLast_eq_none {a b : Option String} : keepLast a b = none ↔ a = none ∧ b = none := by
  cases b <;> simp [keepLast]

theorem renderFrame_fst_mapped (srv : XServer) (f : Frame) (g : Geom)
    (h : f.mapped = true) : (renderFrame srv f g).1 = { f with geom := g } := by
  rcases hc : srv.configure f.parent g with _ | e <;>
    rcases hd : srv.configure f.client ⟨0, 0, g.w, g.h⟩ with _ | e2 <;>
    rcases he : srv.sendEvent f.client with _ | e3 <;>
    simp [renderFrame, h, hc, hd, he]

theorem renderColumnFrames_getElem (srv : XServer) (gap : Nat) (cgeom : Geom) :
    ∀ (frames : List Frame) (y k : Nat) (f : Frame), frames[k]? = some f →
      ∃ g, ((renderColumnFrames srv gap cgeom frames y).1)[k]? =
        some (renderFrame srv f g).1
  | [], y, k, f, h => by simp at h
  | f0 :: rest, y, 0, f, h => by
    simp only [List.getElem?_cons_zero, Option.some.injEq] at h
    subst h
    exact ⟨⟨add32 cgeom.x gap, add32 y gap, sub32 cgeom.w (gap * 2),
      sub32 f0.height (gap * 2)⟩, by simp [renderColumnFrames]⟩
  | f0 :: rest, y, k + 1, f, h => by
    simp only [List.getElem?_cons_succ] at h
    obtain ⟨g, hg⟩ :=
      renderColumnFrames_getElem srv gap cgeom rest (add32 y f0.height) k f h
    exact ⟨g, by simpa [renderColumnFrames] using hg⟩

/-! ## C8: an unmapped frame is skipped by the layout engine -/

/-- C8: for every frame with `mapped = false`, `renderFrame` returns nil without
issuing any server call and without changing any field of the frame, and the frame
keeps its position in its column's frame order under the rendering loop. -/
theorem renderFrame_unmapped (srv : XServer) (f : Frame) (g : Geom)
    (h : f.mapped = false) :
    renderFrame srv f g = (f, [], none) ∧
    ∀ (gap : Nat) (cgeom : Geom) (frames : List Frame) (y k : Nat),
      frames[k]? = some f →
      ((renderColumnFrames srv gap cgeom frames y).1)[k]? = some f := by
  have h1 : renderFrame srv f g = (f, [], none) := by simp [renderFrame, h]
  refine ⟨h1, fun gap cgeom frames y k hk => ?_⟩
  obtain ⟨g2, hg⟩ := renderColumnFrames_getElem srv gap cgeom frames y k f hk
  rw [hg]
  simp [renderFrame, h]

/-- C8 witness: the unmapped frame `⟨5, 6, 500, false, 0⟩` is returned unchanged with
no calls and no error, and keeps its index in a concrete column. -/
theorem renderFrame_unmapped_witness :
    renderFrame srvOK { frA with mapped := false } ⟨1, 2, 3, 4⟩ =
      ({ frA with mapped := false }, [], none) ∧
    ((renderColumnFrames srvOK 5 ⟨0, 0, 960, 1080⟩ [frB, { frA with mapped := false }]
      0).1)[1]? = some { frA with mapped := false } := by
  have h := renderFrame_unmapped srvOK { frA with mapped := false } ⟨1, 2, 3, 4⟩ rfl
  exact ⟨h.1, h.2 5 ⟨0, 0, 960, 1080⟩ [frB, { frA with mapped := false }] 0 1 rfl⟩

/-! ## C4: single-frame fast path of `renderWorkspace` -/

/-- C4: a workspace holding exactly one frame in total bypasses column and frame
splitting: `renderWorkspace` reduces to a single `renderFrame` at the full usable
area (output rectangle minus dock heights) with no inner gap applied, and a mapped
frame receives exactly that rectangle. -/
theorem renderWorkspace_single (srv : XServer) (gap : Nat) (o : Output)
    (ws : Workspace) (cw : Nat) (f : Frame) (h : ws.columns = [⟨cw, [f]⟩]) :
    renderWorkspace srv gap o ws =
      (⟨[⟨cw, [(renderFrame srv f (fullArea o)).1]⟩]⟩,
        (renderFrame srv f (fullArea o)).2.1, (renderFrame srv f (fullArea o)).2.2) ∧
    (f.mapped = true →
      (renderWorkspace srv gap o ws).1 = ⟨[⟨cw, [{ f with geom := fullArea o }]⟩]⟩) := by
  constructor
  · simp [renderWorkspace, singleFrame, setSingleFrame, h]
  · intro hm
    simp [renderWorkspace, singleFrame, setSingleFrame, h,
      renderFrame_fst_mapped srv f (fullArea o) hm]

/-- C4 witness: on a concrete output with a 30px top dock, the only frame of a
single-frame workspace is placed at the full usable area `⟨0, 30, 1920, 1050⟩`. -/
theorem renderWorkspace_single_witness :
    renderWorkspace srvOK 5 ⟨⟨0, 0, 1920, 1080⟩, [dockF1], [], ⟨[⟨960, [frA]⟩]⟩⟩
        ⟨[⟨960, [frA]⟩]⟩ =
      (⟨[⟨960, [{ frA with geom := ⟨0, 30, 1920, 1050⟩ }]⟩]⟩,
        [XCall.configure 5 ⟨0, 30, 1920, 1050⟩, XCall.configure 6 ⟨0, 0, 1920, 1050⟩,
          XCall.sendEvent 6], none) := by
  have h := renderWorkspace_single srvOK 5
    ⟨⟨0, 0, 1920, 1080⟩, [dockF1], [], ⟨[⟨960, [frA]⟩]⟩⟩ ⟨[⟨960, [frA]⟩]⟩ 960 frA rfl
  rw [h.1]
  rfl

/-! ## C1: error accumulation of `renderOutput` -/

/-- C1 counterexample: on `srv0` and `o0` the first error encountered among the three
region renders is the top dock's `e1`, yet `renderOutput` returns the workspace's
`e2`, so `renderOutput` does not return the first error encountered. -/
theorem renderOutput_first_error_cex :
    (renderDock srv0 o0 .top).2.2 = some "e1" ∧
    (renderOutput srv0 0 o0).2.2 = some "e2" ∧
    (renderOutput srv0 0 o0).2.2 ≠ some "e1" := by
  refine ⟨rfl, rfl, ?_⟩
  intro h
  have h2 : some "e2" = some "e1" := h
  simp at h2

/-- C1 amended: `renderOutput` attempts all three regions (top dock area, bottom dock
area, then the active workspace) without short-circuiting on error — its call list is
the concatenation of the three regions' calls — and it returns the last error
encountered among the three region renders, nil exactly when all three succeed. -/
theorem renderOutput_regions (srv : XServer) (gap : Nat) (o : Output) :
    (renderOutput srv gap o).2.1 =
      (renderDock srv o .top).2.1 ++
      (renderDock srv { o with dockTop := (renderDock srv o .top).1 } .bottom).2.1 ++
      (renderWorkspace srv gap
        { { o with dockTop := (renderDock srv o .top).1 } with dockBottom :=
            (renderDock srv { o with dockTop := (renderDock srv o .top).1 } .bottom).1 }
        o.activeWs).2.1 ∧
    (renderOutput srv gap o).2.2 =
      keepLast
        (keepLast (renderDock srv o .top).2.2
          (renderDock srv { o with dockTop := (renderDock srv o .top).1 } .bottom).2.2)
        (renderWorkspace srv gap
          { { o with dockTop := (renderDock srv o .top).1 } with dockBottom :=
              (renderDock srv { o with dockTop := (renderDock srv o .top).1 } .bottom).1 }
          o.activeWs).2.2 ∧
    ((renderOutput srv gap o).2.2 = none ↔
      (renderDock srv o .top).2.2 = none ∧
      (renderDock srv { o with dockTop := (renderDock srv o .top).1 } .bottom).2.2 = none ∧
      (renderWorkspace srv gap
        { { o with dockTop := (renderDock srv o .top).1 } with dockBottom :=
            (renderDock srv { o with dockTop := (renderDock srv o .top).1 } .bottom).1 }
        o.activeWs).2.2 = none) := by
  refine ⟨rfl, rfl, ?_⟩
  show keepLast (keepLast _ _) _ = none ↔ _
  rw [keepLast_eq_none, keepLast_eq_none, and_assoc]

/-! ## C2: error accumulation in the sibling render loops -/

/-- C2 (code bug evidence): in a top dock area holding `dockF1` then `dockF2`, the
first frame's render fails with `boom` while the second succeeds, yet `renderDock`
returns nil — the loop overwrites the remembered error with every sibling's result
instead of remembering the most recent error, contradicting the documented
accumulate-last-error semantics (which `renderColumn` and `renderWorkspace` do
implement). -/
theorem renderDock_overwrites_error :
    (renderFrame srv1 dockF1 ⟨0, 0, 1920, 30⟩).2.2 = some "boom" ∧
    (renderDock srv1 o1 .top).2.2 = none ∧
    XCall.configure 11 ⟨0, 30, 1920, 40⟩ ∈ (renderDock srv1 o1 .top).2.1 := by
  refine ⟨rfl, rfl, ?_⟩
  decide

/-! ## C3: per-frame geometry computed by `renderColumn` -/

theorem renderColumnFrames_geom (srv : XServer) (gap : Nat) (cgeom : Geom) :
    ∀ (frames : List Frame) (y k : Nat) (f : Frame),
      frames[k]? = some f → f.mapped = true →
      cgeom.x + gap < W32 →
      y + sumHeights (frames.take (k + 1)) + gap < W32 →
      gap * 2 ≤ cgeom.w → cgeom.w < W32 →
      gap * 2 ≤ f.height → f.height < W32 →
      ((renderColumnFrames srv gap cgeom frames y).1)[k]? =
        some { f with geom := ⟨cgeom.x + gap, y + sumHeights (frames.take k) + gap,
          cgeom.w - gap * 2, f.height - gap * 2⟩ }
  | [], y, k, f, h, _, _, _, _, _, _, _ => by simp at h
  | f0 :: rest, y, 0, f, h, hm, hx, hy, hw1, hw2, hh1, hh2 => by
    simp only [List.getElem?_cons_zero, Option.some.injEq] at h
    subst h
    simp only [List.take_succ_cons, List.take_zero, sumHeights] at hy ⊢
    have hxe : add32 cgeom.x gap = cgeom.x + gap := add32_eq_of_lt hx
    have hye : add32 y gap = y + gap := add32_eq_of_lt (by omega)
    have hg2 : gap * 2 < W32 := lt_of_le_of_lt hw1 hw2
    have hwe : sub32 cgeom.w (gap * 2) = cgeom.w - gap * 2 := sub32_eq_of_le hw1 hw2
    have hhe : sub32 f0.height (gap * 2) = f0.height - gap * 2 := sub32_eq_of_le hh1 hh2
    simp only [renderColumnFrames, List.getElem?_cons_zero, Option.some.injEq]
    rw [renderFrame_fst_mapped srv f0 _ hm, hxe, hye, hwe, hhe]
    simp
  | f0 :: rest, y, k + 1, f, h, hm, hx, hy, hw1, hw2, hh1, hh2 => by
    simp only [List.getElem?_cons_succ] at h
    simp only [List.take_succ_cons, sumHeights] at hy
    have hstep : add32 y f0.height = y + f0.height := add32_eq_of_lt (by omega)
    have ih := renderColumnFrames_geom srv gap cgeom rest (add32 y f0.height) k f h hm
      hx (by rw [hstep]; omega) hw1 hw2 hh1 hh2
    simp only [renderColumnFrames, List.getElem?_cons_succ]
    rw [ih, hstep]
    simp only [List.take_succ_cons, sumHeights]
    congr 2
    simp only [Geom.mk.injEq, true_and, and_true]
    omega

/-- C3: for every column rendered inside `geom` with inner gap `gap`, the `k`-th
(mapped) frame is assigned the rectangle whose x is `geom.x + gap`, whose y is the
running y (starting at `geom.y` and advanced by the height share of every earlier
frame) plus `gap`, whose width is `geom.w - 2*gap` and whose height is the frame's
height share minus `2*gap` — the gap is applied per frame on all four sides. -/
theorem renderColumn_kth_frame (srv : XServer) (gap : Nat) (col : Column)
    (geom : Geom) (k : Nat) (f : Frame)
    (hf : col.frames[k]? = some f) (hm : f.mapped = true)
    (hx : geom.x + gap < W32)
    (hy : geom.y + sumHeights (col.frames.take (k + 1)) + gap < W32)
    (hw1 : gap * 2 ≤ geom.w) (hw2 : geom.w < W32)
    (hh1 : gap * 2 ≤ f.height) (hh2 : f.height < W32) :
    ((renderColumn srv gap col geom).1.frames)[k]? =
      some { f with geom := ⟨geom.x + gap, geom.y + sumHeights (col.frames.take k) + gap,
        geom.w - gap * 2, f.height - gap * 2⟩ } := by
  have h := renderColumnFrames_geom srv gap geom col.frames geom.y k f hf hm hx hy
    hw1 hw2 hh1 hh2
  simpa [renderColumn] using h

/-- C3 witness: in a column holding `frA` (height 500) above `frB` (height 540),
rendered inside `⟨100, 50, 960, 1040⟩` with gap 5, frame 1 is assigned
`⟨105, 555, 950, 530⟩`. -/
theorem renderColumn_kth_frame_witness :
    ((renderColumn srvOK 5 colAB ⟨100, 50, 960, 1040⟩).1.frames)[1]? =
      some { frB with geom := ⟨105, 555, 950, 530⟩ } := by
  have h := renderColumn_kth_frame srvOK 5 colAB ⟨100, 50, 960, 1040⟩ 1 frB rfl rfl
    (by decide) (by decide) (by decide) (by decide) (by decide) (by decide)
  exact h

/-! ## C6, C7, C10: workspace management -/

theorem findWs_getElem (id : Nat) :
    ∀ (l : List WSpace) (i : Nat) (ws : WSpace), findWs id l = some (i, ws) →
      l[i]? = some ws
  | [], i, ws, h => by simp [findWs] at h
  | w :: rest, i, ws, h => by
    by_cases hw : (w.id == id) = true
    · rw [findWs, if_pos hw] at h
      simp only [Option.some.injEq, Prod.mk.injEq] at h
      obtain ⟨h1, h2⟩ := h
      subst h1; subst h2
      simp
    · rw [findWs, if_neg hw] at h
      rcases hr : findWs id rest with _ | p
      · rw [hr] at h; simp at h
      · rw [hr] at h
        simp only [Option.map_some', Option.some.injEq, Prod.mk.injEq] at h
        obtain ⟨h1, h2⟩ := h
        subst h1; subst h2
        simpa using findWs_getElem id rest p.1 p.2 (by rw [hr])

theorem addWorkspace_getElem :
    ∀ (l : List WSpace) (i : Nat) (ws : WSpace), l[i]? = some ws →
      (addWorkspace l i)[i]? = some { ws with output := some 0 }
  | [], i, ws, h => by simp at h
  | w :: rest, 0, ws, h => by
    simp only [List.getElem?_cons_zero, Option.some.injEq] at h
    subst h
    simp [addWorkspace]
  | w :: rest, i + 1, ws, h => by
    simp only [List.getElem?_cons_succ] at h
    simpa [addWorkspace] using addWorkspace_getElem rest i ws h

theorem switchWorkspace_fst (wm : WMState) (orc : WMOracle) (id : Nat)
    (wm1 : WMState) (i : Nat) (hensure : ensureWorkspace wm id = .ok (wm1, i)) :
    (switchWorkspace wm orc id).1 = { wm1 with activeWs := i } := by
  simp only [switchWorkspace, hensure]
  rcases h1 : orc.renderErr i with _ | e1
  · rcases h2 : orc.hintsErr with _ | e2
    · rcases h3 : orc.removeFocusErr with _ | e3
      · rcases h4 : firstWin wm1.workspaces i with _ | w
        · simp [h1, h2, h3, h4]
        · rcases h5 : orc.setFocusErr w with _ | e5 <;> simp [h1, h2, h3, h4, h5]
      · simp [h1, h2, h3]
    · simp [h1, h2]
  · simp [h1]

/-- C6: `switchWorkspace` fails with a not-found error when no workspace has the
given identifier; it attaches the workspace to the current output when it has none;
and it fails with the explicit "multiple outputs not supported" error when the
workspace belongs to a different output — in both failure cases the tree is left
completely unchanged (no state change, no collaborator call). -/
theorem switchWorkspace_claim (wm : WMState) (orc : WMOracle) (id : Nat) :
    (findWs id wm.workspaces = none →
      switchWorkspace wm orc id =
        (wm, [], some ("failed to ensure workspace: " ++
          ("no workspace with ID " ++ toString id)))) ∧
    (∀ i ws, findWs id wm.workspaces = some (i, ws) → ws.output = none →
      (switchWorkspace wm orc id).1.workspaces = addWorkspace wm.workspaces i ∧
      ((switchWorkspace wm orc id).1.workspaces)[i]? =
        some { ws with output := some 0 }) ∧
    (∀ i ws k, findWs id wm.workspaces = some (i, ws) → ws.output = some (k + 1) →
      switchWorkspace wm orc id =
        (wm, [], some ("failed to ensure workspace: " ++
          "multiple outputs not supported yet"))) := by
  refine ⟨fun hnone => ?_, fun i ws hfind hout => ?_, fun i ws k hfind hout => ?_⟩
  · simp [switchWorkspace, ensureWorkspace, hnone]
  · have hget := findWs_getElem id wm.workspaces i ws hfind
    have hensure : ensureWorkspace wm id =
        .ok ({ wm with workspaces := addWorkspace wm.workspaces i }, i) := by
      simp [ensureWorkspace, hfind, hout]
    have hws : (switchWorkspace wm orc id).1.workspaces = addWorkspace wm.workspaces i := by
      rw [switchWorkspace_fst wm orc id _ i hensure]
    exact ⟨hws, by rw [hws]; exact addWorkspace_getElem wm.workspaces i ws hget⟩
  · simp [switchWorkspace, ensureWorkspace, hfind, hout]

/-- C6 witness: on the concrete state `wm0`, switching to the absent workspace `7`
fails not-found and changes nothing; switching to the unattached workspace `2`
attaches it to output `0`; switching to workspace `3` (owned by output `1`) fails
with the multiple-outputs error and changes nothing. -/
theorem switchWorkspace_claim_witness :
    switchWorkspace wm0 orcOK 7 =
      (wm0, [], some "failed to ensure workspace: no workspace with ID 7") ∧
    ((switchWorkspace wm0 orcOK 2).1.workspaces)[1]? =
      some ⟨2, [⟨960, [frB]⟩], some 0⟩ ∧
    switchWorkspace wm0 orcOK 3 =
      (wm0, [], some "failed to ensure workspace: multiple outputs not supported yet") := by
  refine ⟨?_, ?_, ?_⟩
  · have h := (switchWorkspace_claim wm0 orcOK 7).1 (by rfl)
    simpa using h
  · have h := ((switchWorkspace_claim wm0 orcOK 2).2.1 1 ⟨2, [⟨960, [frB]⟩], none⟩
      (by rfl) rfl).2
    simpa using h
  · exact (switchWorkspace_claim wm0 orcOK 3).2.2 2 ⟨3, [], some 1⟩ 0 (by rfl) rfl

theorem findInFrames_eq_none {win : Nat} :
    ∀ {l : List Frame}, (∀ fr ∈ l, fr.client ≠ win) → findInFrames win l = none
  | [], _ => rfl
  | f :: rest, h => by
    have hf : ¬ (f.client == win) = true := by
      simp only [beq_iff_eq]
      exact h f (List.mem_cons_self f rest)
    rw [findInFrames, if_neg hf]
    exact findInFrames_eq_none fun fr hfr => h fr (List.mem_cons_of_mem f hfr)

theorem delFrameCols_not_found {win : Nat} :
    ∀ {cols : List Column}, (∀ c ∈ cols, ∀ fr ∈ c.frames, fr.client ≠ win) →
      delFrameCols win cols = (cols, false)
  | [], _ => rfl
  | c :: rest, h => by
    have hc : findInFrames win c.frames = none :=
      findInFrames_eq_none fun fr hfr => h c (by simp) fr hfr
    have hrest : delFrameCols win rest = (rest, false) :=
      delFrameCols_not_found fun c2 hc2 fr hfr => h c2 (by simp [hc2]) fr hfr
    simp [delFrameCols, hc, hrest]

/-- C7: `moveFrameToWorkspace` fails, without inserting the frame into the target
workspace, unmapping it, re-rendering or touching the desktop hints, whenever the
frame is not contained in the source (active) workspace it is being moved out of:
the result is exactly the post-`ensureWorkspace` state, an empty effect list, and
the "frame not contained" error. -/
theorem moveFrameToWorkspace_not_contained (wm : WMState) (orc : WMOracle)
    (defW : Nat) (f : Frame) (wsID : Nat) (wm1 : WMState) (next : Nat)
    (hensure : ensureWorkspace wm wsID = .ok (wm1, next))
    (hne : next ≠ wm.activeWs)
    (hnotin : ∀ c ∈ ((wm1.workspaces[wm.activeWs]?).getD ⟨0, [], none⟩).columns,
      ∀ fr ∈ c.frames, fr.client ≠ f.client) :
    moveFrameToWorkspace wm orc defW f wsID =
      (wm1, [], some ("frame not contained within workspace " ++ toString wsID)) := by
  have hdel : delFrameCols f.client
      ((wm1.workspaces[wm.activeWs]?).getD ⟨0, [], none⟩).columns =
      (((wm1.workspaces[wm.activeWs]?).getD ⟨0, [], none⟩).columns, false) :=
    delFrameCols_not_found hnotin
  simp only [moveFrameToWorkspace, hensure]
  rw [if_neg (by simpa using hne)]
  simp [wsDeleteFrame, hdel]

/-- C7 witness: moving `frC` (which is in no workspace of `wm0`) out of the active
workspace `1` towards workspace `2` fails with the containment error, with no
insertion, no unmap and no render. -/
theorem moveFrameToWorkspace_not_contained_witness :
    moveFrameToWorkspace wm0 orcOK 960 frC 2 =
      ({ wm0 with workspaces := addWorkspace wm0.workspaces 1 }, [],
        some "frame not contained within workspace 2") := by
  have h := moveFrameToWorkspace_not_contained wm0 orcOK 960 frC 2
    { wm0 with workspaces := addWorkspace wm0.workspaces 1 } 1 (by rfl)
    (by decide) (by decide)
  simpa using h

/-- C10: calling `moveFrameToWorkspace` with an identifier that resolves to the
currently active workspace (attached, as the active workspace always is, to the
current output) returns nil with no effect at all: the state is unchanged and no
unmap, render or desktop-hint call is made. -/
theorem moveFrameToWorkspace_self (wm : WMState) (orc : WMOracle) (defW : Nat)
    (f : Frame) (wsID : Nat) (ws : WSpace)
    (hfind : findWs wsID wm.workspaces = some (wm.activeWs, ws))
    (hout : ws.output = some 0) :
    moveFrameToWorkspace wm orc defW f wsID = (wm, [], none) := by
  simp [moveFrameToWorkspace, ensureWorkspace, hfind, hout]

/-- C10 witness: moving `frA` to workspace `1` — the active workspace of `wm0` —
returns nil and leaves everything untouched. -/
theorem moveFrameToWorkspace_self_witness :
    moveFrameToWorkspace wm0 orcOK 960 frA 1 = (wm0, [], none) :=
  moveFrameToWorkspace_self wm0 orcOK 960 frA 1 ⟨1, [⟨960, [frA]⟩], some 0⟩
    (by rfl) rfl

/-! ## C5, C9: lemmas about the container searches of `moveWindow` -/

theorem getElem_append_mid {α : Type} :
    ∀ (l1 : List α) (a : α) (l2 : List α), (l1 ++ a :: l2)[l1.length]? = some a
  | [], a, l2 => by simp
  | x :: l1, a, l2 => by simpa using getElem_append_mid l1 a l2

theorem set_append_mid {α : Type} :
    ∀ (l1 : List α) (a b : α) (l2 : List α), (l1 ++ a :: l2).set l1.length b = l1 ++ b :: l2
  | [], a, b, l2 => by simp
  | x :: l1, a, b, l2 => by
    rw [List.cons_append, List.length_cons, List.set_cons_succ, set_append_mid l1 a b l2,
      List.cons_append]

theorem eraseIdx_append_mid {α : Type} :
    ∀ (l1 : List α) (a : α) (l2 : List α), (l1 ++ a :: l2).eraseIdx l1.length = l1 ++ l2
  | [], a, l2 => by simp
  | x :: l1, a, l2 => by simpa [List.eraseIdx] using eraseIdx_append_mid l1 a l2

theorem findInFrames_append {win : Nat} {f : Frame} (hwin : f.client = win) :
    ∀ {u : List Frame} (v : List Frame), (∀ fr ∈ u, fr.client ≠ win) →
      findInFrames win (u ++ f :: v) = some f
  | [], v, _ => by simp [findInFrames, hwin]
  | fr0 :: u, v, hu => by
    have h0 : ¬ (fr0.client == win) = true := by
      simp only [beq_iff_eq]
      exact hu fr0 (List.mem_cons_self fr0 u)
    rw [List.cons_append, findInFrames, if_neg h0]
    exact findInFrames_append hwin v fun fr hfr => hu fr (List.mem_cons_of_mem fr0 hfr)

theorem eraseFrame_append {win : Nat} {f : Frame} (hwin : f.client = win) :
    ∀ {u : List Frame} (v : List Frame), (∀ fr ∈ u, fr.client ≠ win) →
      eraseFrame win (u ++ f :: v) = u ++ v
  | [], v, _ => by simp [eraseFrame, hwin]
  | fr0 :: u, v, hu => by
    have h0 : ¬ (fr0.client == win) = true := by
      simp only [beq_iff_eq]
      exact hu fr0 (List.mem_cons_self fr0 u)
    rw [List.cons_append, eraseFrame, if_neg h0,
      eraseFrame_append hwin v fun fr hfr => hu fr (List.mem_cons_of_mem fr0 hfr)]
    rfl

theorem findFrameIdx_append {win : Nat} {f : Frame} (hwin : f.client = win) :
    ∀ {u : List Frame} (v : List Frame), (∀ fr ∈ u, fr.client ≠ win) →
      findFrameIdx win (u ++ f :: v) = some u.length
  | [], v, _ => by simp [findFrameIdx, hwin]
  | fr0 :: u, v, hu => by
    have h0 : ¬ (fr0.client == win) = true := by
      simp only [beq_iff_eq]
      exact hu fr0 (List.mem_cons_self fr0 u)
    rw [List.cons_append, findFrameIdx, if_neg h0,
      findFrameIdx_append hwin v fun fr hfr => hu fr (List.mem_cons_of_mem fr0 hfr)]
    rfl

theorem locate_append {win : Nat} {c : Column} {f : Frame}
    (hc : findInFrames win c.frames = some f) :
    ∀ {A : List Column} (B : List Column),
      (∀ col ∈ A, ∀ fr ∈ col.frames, fr.client ≠ win) →
      locate win (A ++ c :: B) = some (A.length, f)
  | [], B, _ => by simp [locate, hc]
  | c0 :: A, B, hA => by
    have h0 : findInFrames win c0.frames = none :=
      findInFrames_eq_none fun fr hfr => hA c0 (List.mem_cons_self c0 A) fr hfr
    rw [List.cons_append, locate, h0,
      locate_append hc B fun col hcol fr hfr => hA col (List.mem_cons_of_mem c0 hcol) fr hfr]
    rfl

theorem moveWindow_up_eq (defW : Nat) (A B : List Column) (c : Column)
    (u v : List Frame) (f : Frame) (win : Nat)
    (hc : c.frames = u ++ f :: v) (hwin : f.client = win)
    (hA : ∀ col ∈ A, ∀ fr ∈ col.frames, fr.client ≠ win)
    (hu : ∀ fr ∈ u, fr.client ≠ win) :
    moveWindow defW (A ++ c :: B) win .up =
      (match u.getLast? with
       | none => A ++ c :: B
       | some p => A ++ { c with frames := u.dropLast ++ f :: p :: v } :: B) := by
  have hfind : findInFrames win c.frames = some f := by
    rw [hc]; exact findInFrames_append hwin v hu
  have hloc : locate win (A ++ c :: B) = some (A.length, f) := locate_append hfind B hA
  have hcol : (A ++ c :: B)[A.length]? = some c := getElem_append_mid A c B
  have hj : findFrameIdx win c.frames = some u.length := by
    rw [hc]; exact findFrameIdx_append hwin v hu
  rcases List.eq_nil_or_concat u with hun | ⟨u', p, hup⟩
  · subst hun
    simp [moveWindow, hloc, hcol, hj]
  · rw [List.concat_eq_append] at hup
    subst hup
    have hcf : c.frames = u' ++ p :: f :: v := by rw [hc]; simp
    have hother : c.frames[u'.length]? = some p := by
      rw [hcf]; exact getElem_append_mid u' p (f :: v)
    have hset1 : c.frames.set u'.length f = u' ++ f :: f :: v := by
      rw [hcf]; exact set_append_mid u' p f (f :: v)
    have hset2 : (u' ++ f :: f :: v).set (u'.length + 1) p = u' ++ f :: p :: v := by
      simp
    have hsetc : (A ++ c :: B).set A.length
        { c with frames := u' ++ f :: p :: v } =
        A ++ { c with frames := u' ++ f :: p :: v } :: B :=
      set_append_mid A c { c with frames := u' ++ f :: p :: v } B
    simp only [moveWindow, hloc, hcol, Option.getD_some, hj, List.length_append,
      List.length_cons, List.length_nil, Nat.zero_add]
    rw [if_pos (by omega)]
    have hsub : u'.length + 1 - 1 = u'.length := by omega
    rw [hsub, hother, Option.getD_some, hset1, hset2, hsetc]
    simp

theorem moveWindow_down_eq (defW : Nat) (A B : List Column) (c : Column)
    (u v : List Frame) (f : Frame) (win : Nat)
    (hc : c.frames = u ++ f :: v) (hwin : f.client = win)
    (hA : ∀ col ∈ A, ∀ fr ∈ col.frames, fr.client ≠ win)
    (hu : ∀ fr ∈ u, fr.client ≠ win) :
    moveWindow defW (A ++ c :: B) win .down =
      (match v with
       | [] => A ++ c :: B
       | q :: v1 => A ++ { c with frames := u ++ q :: f :: v1 } :: B) := by
  have hfind : findInFrames win c.frames = some f := by
    rw [hc]; exact findInFrames_append hwin v hu
  have hloc : locate win (A ++ c :: B) = some (A.length, f) := locate_append hfind B hA
  have hcol : (A ++ c :: B)[A.length]? = some c := getElem_append_mid A c B
  have hj : findFrameIdx win c.frames = some u.length := by
    rw [hc]; exact findFrameIdx_append hwin v hu
  rcases v with _ | ⟨q, v1⟩
  · have hlen : c.frames.length = u.length + 1 := by rw [hc]; simp
    have hcond : ¬ (u.length < c.frames.length - 1) := by omega
    simp only [moveWindow, hloc, hcol, Option.getD_some, hj]
    rw [if_neg hcond]
  · have hlen : c.frames.length = u.length + 2 + v1.length := by rw [hc]; simp; omega
    have hcond : u.length < c.frames.length - 1 := by omega
    have hother : c.frames[u.length + 1]? = some q := by
      rw [hc]
      have h := getElem_append_mid (u ++ [f]) q v1
      simp only [List.length_append, List.length_cons, List.length_nil, Nat.zero_add,
        List.append_assoc, List.cons_append, List.nil_append] at h
      exact h
    have hset1 : c.frames.set (u.length + 1) f = u ++ f :: f :: v1 := by
      rw [hc]
      have h := set_append_mid (u ++ [f]) q f v1
      simp only [List.length_append, List.length_cons, List.length_nil, Nat.zero_add,
        List.append_assoc, List.cons_append, List.nil_append] at h
      exact h
    have hset2 : (u ++ f :: f :: v1).set u.length q = u ++ q :: f :: v1 :=
      set_append_mid u f q (f :: v1)
    have hsetc : (A ++ c :: B).set A.length
        { c with frames := u ++ q :: f :: v1 } =
        A ++ { c with frames := u ++ q :: f :: v1 } :: B :=
      set_append_mid A c { c with frames := u ++ q :: f :: v1 } B
    simp only [moveWindow, hloc, hcol, Option.getD_some, hj]
    rw [if_pos hcond, hother, Option.getD_some, hset1, hset2, hsetc]

/-- C9: a vertical move swaps the frame with the adjacent sibling by index; it is a
no-op (returning the workspace unchanged) when the frame is already first (moving up)
or last (moving down); and the column's frame count and frame membership are
unchanged in every case. -/
theorem moveWindow_vertical (defW : Nat) (A B : List Column) (c : Column)
    (u v : List Frame) (f : Frame) (win : Nat)
    (hc : c.frames = u ++ f :: v) (hwin : f.client = win)
    (hA : ∀ col ∈ A, ∀ fr ∈ col.frames, fr.client ≠ win)
    (hu : ∀ fr ∈ u, fr.client ≠ win) :
    (moveWindow defW (A ++ c :: B) win .up =
      (match u.getLast? with
       | none => A ++ c :: B
       | some p => A ++ { c with frames := u.dropLast ++ f :: p :: v } :: B)) ∧
    (moveWindow defW (A ++ c :: B) win .down =
      (match v with
       | [] => A ++ c :: B
       | q :: v1 => A ++ { c with frames := u ++ q :: f :: v1 } :: B)) ∧
    ((moveWindow defW (A ++ c :: B) win .up).map (fun col => col.frames.length) =
      (A ++ c :: B).map (fun col => col.frames.length)) ∧
    ((moveWindow defW (A ++ c :: B) win .down).map (fun col => col.frames.length) =
      (A ++ c :: B).map (fun col => col.frames.length)) ∧
    (match u.getLast? with
     | none => True
     | some p => (u.dropLast ++ f :: p :: v).Perm c.frames) ∧
    (match v with
     | [] => True
     | q :: v1 => (u ++ q :: f :: v1).Perm c.frames) := by
  have hupc := moveWindow_up_eq defW A B c u v f win hc hwin hA hu
  have hdownc := moveWindow_down_eq defW A B c u v f win hc hwin hA hu
  refine ⟨hupc, hdownc, ?_, ?_, ?_, ?_⟩
  · rw [hupc]
    rcases List.eq_nil_or_concat u with hun | ⟨u', p, hup⟩
    · subst hun; rfl
    · rw [List.concat_eq_append] at hup
      subst hup
      simp only [List.getLast?_concat, List.map_append, List.map_cons, hc]
      simp
  · rw [hdownc]
    rcases v with _ | ⟨q, v1⟩
    · rfl
    · show (A ++ { c with frames := u ++ q :: f :: v1 } :: B).map
        (fun col => col.frames.length) = (A ++ c :: B).map (fun col => col.frames.length)
      simp only [List.map_append, List.map_cons, hc]
      simp
  · rcases List.eq_nil_or_concat u with hun | ⟨u', p, hup⟩
    · subst hun; simp
    · rw [List.concat_eq_append] at hup
      subst hup
      rw [List.getLast?_concat]
      show ((u' ++ [p]).dropLast ++ f :: p :: v).Perm c.frames
      rw [List.dropLast_concat, hc]
      have hassoc : (u' ++ [p]) ++ f :: v = u' ++ p :: f :: v := by simp
      rw [hassoc]
      exact List.Perm.append_left u' (List.Perm.swap p f v)
  · rcases v with _ | ⟨q, v1⟩
    · simp
    · show (u ++ q :: f :: v1).Perm c.frames
      rw [hc]
      exact List.Perm.append_left u (List.Perm.swap f q v1)

/-- C9 witness: in the single column `[frA, frB]`, moving `frB` (window 8) up swaps it
with `frA`, and moving it down is a no-op. -/
theorem moveWindow_vertical_witness :
    moveWindow 960 [colAB] 8 .up = [⟨960, [frB, frA]⟩] ∧
    moveWindow 960 [colAB] 8 .down = [colAB] := by
  have h := moveWindow_vertical 960 [] [] colAB [frA] [] frB 8 rfl rfl
    (by intro col hcol; simp at hcol) (by decide)
  exact ⟨h.1, h.2.1⟩

theorem moveWindow_left_eq (defW : Nat) (A B : List Column) (c : Column)
    (u v : List Frame) (f : Frame) (win : Nat)
    (hc : c.frames = u ++ f :: v) (hwin : f.client = win)
    (hA : ∀ col ∈ A, ∀ fr ∈ col.frames, fr.client ≠ win)
    (hu : ∀ fr ∈ u, fr.client ≠ win) :
    moveWindow defW (A ++ c :: B) win .left =
      (match A.getLast? with
       | none => Column.mk defW [f] ::
           ((if u ++ v = [] then [] else [{ c with frames := u ++ v }]) ++ B)
       | some p => A.dropLast ++ { p with frames := p.frames ++ [f] } ::
           ((if u ++ v = [] then [] else [{ c with frames := u ++ v }]) ++ B)) := by
  have hfind : findInFrames win c.frames = some f := by
    rw [hc]; exact findInFrames_append hwin v hu
  have hloc : locate win (A ++ c :: B) = some (A.length, f) := locate_append hfind B hA
  have hcol : (A ++ c :: B)[A.length]? = some c := getElem_append_mid A c B
  have herase : eraseFrame win c.frames = u ++ v := by
    rw [hc]; exact eraseFrame_append hwin v hu
  rcases List.eq_nil_or_concat A with hA0 | ⟨A', p, hAp⟩
  · subst hA0
    simp only [List.nil_append, List.length_nil] at hloc hcol
    rcases huv : u ++ v with _ | ⟨x, xs⟩ <;> rw [huv] at herase <;>
      simp [moveWindow, hloc, hcol, herase, List.eraseIdx]
  · rw [List.concat_eq_append] at hAp
    subst hAp
    have hlen : (A' ++ [p]).length = A'.length + 1 := by simp
    have hne : ¬ (((A' ++ [p]).length == 0) = true) := by simp
    rcases huv : u ++ v with _ | ⟨x, xs⟩ <;> rw [huv] at herase
    · have hsetc : ((A' ++ [p]) ++ c :: B).set (A' ++ [p]).length
          { c with frames := ([] : List Frame) } =
          A' ++ p :: { c with frames := ([] : List Frame) } :: B := by
        rw [set_append_mid (A' ++ [p]) c { c with frames := ([] : List Frame) } B]
        simp
      have hadj : (A' ++ p :: { c with frames := ([] : List Frame) } :: B)[A'.length]? =
          some p := getElem_append_mid A' p _
      have hset2 : (A' ++ p :: { c with frames := ([] : List Frame) } :: B).set A'.length
          { p with frames := p.frames ++ [f] } =
          A' ++ { p with frames := p.frames ++ [f] } ::
            { c with frames := ([] : List Frame) } :: B :=
        set_append_mid A' p _ _
      have herase2 : (A' ++ { p with frames := p.frames ++ [f] } ::
          { c with frames := ([] : List Frame) } :: B).eraseIdx (A'.length + 1) =
          A' ++ { p with frames := p.frames ++ [f] } :: B := by
        have h := eraseIdx_append_mid (A' ++ [{ p with frames := p.frames ++ [f] }])
          { c with frames := ([] : List Frame) } B
        simp only [List.append_assoc, List.cons_append, List.nil_append,
          List.length_append, List.length_cons, List.length_nil, Nat.zero_add] at h
        exact h
      simp only [moveWindow, hloc, hcol, Option.getD_some, herase]
      rw [if_neg hne, hsetc, hlen]
      simp only [Nat.add_sub_cancel, hadj, Option.getD_some, hset2, List.isEmpty_nil,
        if_true, herase2, List.getLast?_concat, List.dropLast_concat]
      simp
    · have hsetc : ((A' ++ [p]) ++ c :: B).set (A' ++ [p]).length
          { c with frames := x :: xs } =
          A' ++ p :: { c with frames := x :: xs } :: B := by
        rw [set_append_mid (A' ++ [p]) c { c with frames := x :: xs } B]
        simp
      have hadj : (A' ++ p :: { c with frames := x :: xs } :: B)[A'.length]? = some p :=
        getElem_append_mid A' p _
      have hset2 : (A' ++ p :: { c with frames := x :: xs } :: B).set A'.length
          { p with frames := p.frames ++ [f] } =
          A' ++ { p with frames := p.frames ++ [f] } ::
            { c with frames := x :: xs } :: B :=
        set_append_mid A' p _ _
      simp only [moveWindow, hloc, hcol, Option.getD_some, herase]
      rw [if_neg hne, hsetc, hlen]
      simp only [Nat.add_sub_cancel, hadj, Option.getD_some, hset2,
        List.isEmpty_cons, Bool.false_eq_true, if_false, List.getLast?_concat,
        List.dropLast_concat]
      simp

theorem moveWindow_right_eq (defW : Nat) (A B : List Column) (c : Column)
    (u v : List Frame) (f : Frame) (win : Nat)
    (hc : c.frames = u ++ f :: v) (hwin : f.client = win)
    (hA : ∀ col ∈ A, ∀ fr ∈ col.frames, fr.client ≠ win)
    (hu : ∀ fr ∈ u, fr.client ≠ win) :
    moveWindow defW (A ++ c :: B) win .right =
      (match B with
       | [] => A ++ ((if u ++ v = [] then [] else [{ c with frames := u ++ v }]) ++
           [Column.mk defW [f]])
       | q :: B1 => A ++ ((if u ++ v = [] then [] else [{ c with frames := u ++ v }]) ++
           { q with frames := q.frames ++ [f] } :: B1)) := by
  have hfind : findInFrames win c.frames = some f := by
    rw [hc]; exact findInFrames_append hwin v hu
  have hloc : locate win (A ++ c :: B) = some (A.length, f) := locate_append hfind B hA
  have hcol : (A ++ c :: B)[A.length]? = some c := getElem_append_mid A c B
  have herase : eraseFrame win c.frames = u ++ v := by
    rw [hc]; exact eraseFrame_append hwin v hu
  rcases B with _ | ⟨q, B1⟩
  · have hedge : ((A.length : Nat) == (A ++ [c]).length - 1) = true := by simp
    rcases huv : u ++ v with _ | ⟨x, xs⟩ <;> rw [huv] at herase
    · have hsetc : (A ++ [c]).set A.length { c with frames := ([] : List Frame) } =
          A ++ [{ c with frames := ([] : List Frame) }] :=
        set_append_mid A c { c with frames := ([] : List Frame) } []
      have herase2 : ((A ++ [{ c with frames := ([] : List Frame) }]) ++
          [Column.mk defW [f]]).eraseIdx A.length = A ++ [Column.mk defW [f]] := by
        have h := eraseIdx_append_mid A { c with frames := ([] : List Frame) }
          [Column.mk defW [f]]
        simpa using h
      simp only [moveWindow, hloc, hcol, Option.getD_some, herase, hedge, if_true,
        hsetc]
      simp only [List.isEmpty_nil, if_true]
      rw [herase2]
      simp
    · have hsetc : (A ++ [c]).set A.length { c with frames := x :: xs } =
          A ++ [{ c with frames := x :: xs }] :=
        set_append_mid A c { c with frames := x :: xs } []
      simp only [moveWindow, hloc, hcol, Option.getD_some, herase, hedge, if_true,
        hsetc]
      simp
  · have hedge : ¬ (((A.length : Nat) == (A ++ c :: q :: B1).length - 1) = true) := by
      simp only [beq_iff_eq, List.length_append, List.length_cons]
      omega
    rcases huv : u ++ v with _ | ⟨x, xs⟩ <;> rw [huv] at herase
    · have hsetc : (A ++ c :: q :: B1).set A.length
          { c with frames := ([] : List Frame) } =
          A ++ { c with frames := ([] : List Frame) } :: q :: B1 :=
        set_append_mid A c _ _
      have hadj : (A ++ { c with frames := ([] : List Frame) } :: q :: B1)[A.length + 1]? =
          some q := by
        have h := getElem_append_mid (A ++ [{ c with frames := ([] : List Frame) }]) q B1
        simp only [List.append_assoc, List.cons_append, List.nil_append,
          List.length_append, List.length_cons, List.length_nil, Nat.zero_add] at h
        exact h
      have hset2 : (A ++ { c with frames := ([] : List Frame) } :: q :: B1).set
          (A.length + 1) { q with frames := q.frames ++ [f] } =
          A ++ { c with frames := ([] : List Frame) } ::
            { q with frames := q.frames ++ [f] } :: B1 := by
        have h := set_append_mid (A ++ [{ c with frames := ([] : List Frame) }]) q
          { q with frames := q.frames ++ [f] } B1
        simp only [List.append_assoc, List.cons_append, List.nil_append,
          List.length_append, List.length_cons, List.length_nil, Nat.zero_add] at h
        exact h
      have herase2 : (A ++ { c with frames := ([] : List Frame) } ::
          { q with frames := q.frames ++ [f] } :: B1).eraseIdx A.length =
          A ++ { q with frames := q.frames ++ [f] } :: B1 :=
        eraseIdx_append_mid A _ _
      simp only [moveWindow, hloc, hcol, Option.getD_some, herase]
      rw [if_neg hedge]
      simp only [hsetc, hadj, Option.getD_some, hset2, List.isEmpty_nil, if_true,
        herase2]
      simp
    · have hsetc : (A ++ c :: q :: B1).set A.length { c with frames := x :: xs } =
          A ++ { c with frames := x :: xs } :: q :: B1 :=
        set_append_mid A c _ _
      have hadj : (A ++ { c with frames := x :: xs } :: q :: B1)[A.length + 1]? =
          some q := by
        have h := getElem_append_mid (A ++ [{ c with frames := x :: xs }]) q B1
        simp only [List.append_assoc, List.cons_append, List.nil_append,
          List.length_append, List.length_cons, List.length_nil, Nat.zero_add] at h
        exact h
      have hset2 : (A ++ { c with frames := x :: xs } :: q :: B1).set
          (A.length + 1) { q with frames := q.frames ++ [f] } =
          A ++ { c with frames := x :: xs } ::
            { q with frames := q.frames ++ [f] } :: B1 := by
        have h := set_append_mid (A ++ [{ c with frames := x :: xs }]) q
          { q with frames := q.frames ++ [f] } B1
        simp only [List.append_assoc, List.cons_append, List.nil_append,
          List.length_append, List.length_cons, List.length_nil, Nat.zero_add] at h
        exact h
      simp only [moveWindow, hloc, hcol, Option.getD_some, herase]
      rw [if_neg hedge]
      simp only [hsetc, hadj, Option.getD_some, hset2, List.isEmpty_cons,
        Bool.false_eq_true, if_false]
      simp

/-- C5: a horizontal move removes the frame from its current column; from the leftmost
column moving left (or rightmost moving right) a new column of the default width is
created at that edge with the frame as its sole member, otherwise the frame is
inserted into the adjacent existing column; an original column left empty is deleted;
and a workspace whose columns were all nonempty never retains an empty column after
the move. -/
theorem moveWindow_horizontal (defW : Nat) (A B : List Column) (c : Column)
    (u v : List Frame) (f : Frame) (win : Nat)
    (hc : c.frames = u ++ f :: v) (hwin : f.client = win)
    (hA : ∀ col ∈ A, ∀ fr ∈ col.frames, fr.client ≠ win)
    (hu : ∀ fr ∈ u, fr.client ≠ win) :
    (moveWindow defW (A ++ c :: B) win .left =
      (match A.getLast? with
       | none => Column.mk defW [f] ::
           ((if u ++ v = [] then [] else [{ c with frames := u ++ v }]) ++ B)
       | some p => A.dropLast ++ { p with frames := p.frames ++ [f] } ::
           ((if u ++ v = [] then [] else [{ c with frames := u ++ v }]) ++ B))) ∧
    (moveWindow defW (A ++ c :: B) win .right =
      (match B with
       | [] => A ++ ((if u ++ v = [] then [] else [{ c with frames := u ++ v }]) ++
           [Column.mk defW [f]])
       | q :: B1 => A ++ ((if u ++ v = [] then [] else [{ c with frames := u ++ v }]) ++
           { q with frames := q.frames ++ [f] } :: B1))) ∧
    ((∀ col ∈ A ++ c :: B, col.frames ≠ []) →
      (∀ col ∈ moveWindow defW (A ++ c :: B) win .left, col.frames ≠ []) ∧
      (∀ col ∈ moveWindow defW (A ++ c :: B) win .right, col.frames ≠ [])) := by
  have hl := moveWindow_left_eq defW A B c u v f win hc hwin hA hu
  have hr := moveWindow_right_eq defW A B c u v f win hc hwin hA hu
  refine ⟨hl, hr, fun hne => ⟨?_, ?_⟩⟩
  · rw [hl]
    rcases List.eq_nil_or_concat A with hA0 | ⟨A', p, hAp⟩
    · subst hA0
      intro col hcol
      simp only [List.getLast?_nil] at hcol
      rcases List.mem_cons.mp hcol with h1 | h2
      · subst h1; simp
      · rcases List.mem_append.mp h2 with h3 | h4
        · by_cases huv : u ++ v = []
          · rw [if_pos huv] at h3; simp at h3
          · rw [if_neg huv] at h3
            simp only [List.mem_singleton] at h3
            subst h3
            simpa using huv
        · exact hne col (by simp [h4])
    · rw [List.concat_eq_append] at hAp
      subst hAp
      intro col hcol
      simp only [List.getLast?_concat, List.dropLast_concat] at hcol
      rcases List.mem_append.mp hcol with h1 | h2
      · exact hne col (by simp [h1])
      · rcases List.mem_cons.mp h2 with h3 | h4
        · subst h3; simp
        · rcases List.mem_append.mp h4 with h5 | h6
          · by_cases huv : u ++ v = []
            · rw [if_pos huv] at h5; simp at h5
            · rw [if_neg huv] at h5
              simp only [List.mem_singleton] at h5
              subst h5
              simpa using huv
          · exact hne col (by simp [h6])
  · rw [hr]
    rcases B with _ | ⟨q, B1⟩
    · intro col hcol
      rcases List.mem_append.mp hcol with h1 | h2
      · exact hne col (by simp [h1])
      · rcases List.mem_append.mp h2 with h3 | h4
        · by_cases huv : u ++ v = []
          · rw [if_pos huv] at h3; simp at h3
          · rw [if_neg huv] at h3
            simp only [List.mem_singleton] at h3
            subst h3
            simpa using huv
        · simp only [List.mem_singleton] at h4
          subst h4
          simp
    · intro col hcol
      rcases List.mem_append.mp hcol with h1 | h2
      · exact hne col (by simp [h1])
      · rcases List.mem_append.mp h2 with h3 | h4
        · by_cases huv : u ++ v = []
          · rw [if_pos huv] at h3; simp at h3
          · rw [if_neg huv] at h3
            simp only [List.mem_singleton] at h3
            subst h3
            simpa using huv
        · rcases List.mem_cons.mp h4 with h5 | h6
          · subst h5; simp
          · exact hne col (by simp [h6])

/-- C5 witness: in the single-column workspace `[[frA, frB]]`, moving `frB` (window 8)
left creates a new leftmost column `⟨300, [frB]⟩` and keeps `⟨960, [frA]⟩`; moving it
right creates a new rightmost column instead; neither result contains an empty
column. -/
theorem moveWindow_horizontal_witness :
    moveWindow 300 [colAB] 8 .left = [⟨300, [frB]⟩, ⟨960, [frA]⟩] ∧
    moveWindow 300 [colAB] 8 .right = [⟨960, [frA]⟩, ⟨300, [frB]⟩] ∧
    (∀ col ∈ moveWindow 300 [colAB] 8 .left, col.frames ≠ []) := by
  have h := moveWindow_horizontal 300 [] [] colAB [frA] [] frB 8 rfl rfl
    (by intro col hcol; simp at hcol) (by decide)
  refine ⟨by simpa using h.1, by simpa using h.2.1, (h.2.2 ?_).1⟩
  intro col hcol
  simp only [List.nil_append, List.mem_singleton] at hcol
  subst hcol
  simp [colAB]

end Marwind
